import Mathlib

/-!
Verification development for the Promptlyzer Lite frontend core: the
experiment data model, the dual-source accuracy resolution, the rating
workflow state machine, the dataset import, the retry helper, and the
history/comparison store.  Numbers are modelled as rationals (`Rat`),
option-valued fields model absent JavaScript values, and browser/network
effects are modelled by explicit state passing.
-/

namespace Promptlyzer

/-- A per-sample result returned by the backend
(`SampleResult` in the data model). -/
structure SampleResult where
  input : String
  output : Option String
  success : Bool
  error : Option String
  tokens : Nat
  cost : Rat
  accuracy : Rat
deriving Repr, DecidableEq

/-- A completed experiment as returned by the backend. -/
structure Experiment where
  experiment_id : Nat
  prompt : String
  model : String
  samples_tested : Nat
  avg_tokens : Rat
  estimated_cost : Option Rat
  accuracy : Rat
  sample_results : List SampleResult
deriving Repr, DecidableEq

/-- The client-held manual-rating overlay entry stored per experiment id
(the value written to the manualRatings localStorage map). -/
structure ManualRating where
  ratings : List (Nat × Nat)
  accuracy : Rat
deriving Repr, DecidableEq

/-- The manual-rating overlay map keyed by experiment id
(the parsed manualRatings localStorage object). -/
def RatingsMap : Type := Nat → Option ManualRating

/-- The empty overlay map. -/
def emptyRatings : RatingsMap := fun _ => none

/-- Effective accuracy as the specification defines it: the manual-rating
overlay accuracy for the experiment id when present, else the experiment's
computed accuracy.  This is the reference definition the consumption sites
are compared against. -/
def effectiveAccuracy (m : RatingsMap) (e : Experiment) : Rat :=
  match m e.experiment_id with
  | some r => r.accuracy
  | none => e.accuracy

/-- Single-result display accuracy, from ResultsView line 186:
manualAccuracy when the session state is non-null, else the result's
computed accuracy.  The session state starts at null and is set only by a
save performed in this ResultsView session. -/
def displayAccuracy (manualAccuracy : Option Rat) (results : Experiment) : Rat :=
  match manualAccuracy with
  | some a => a
  | none => results.accuracy

/-- Merge step of ResultsView.fetchAllExperiments (lines 141-152): when the
overlay holds an entry for the experiment id, the experiment's accuracy
field is replaced by the overlay accuracy and has_manual_rating is set. -/
def mergeChartExperiment (m : RatingsMap) (e : Experiment) : Experiment × Bool :=
  match m e.experiment_id with
  | some r => ({ e with accuracy := r.accuracy }, true)
  | none => (e, false)

/-- Merge step of ExperimentHistory.fetchExperiments: the overlay accuracy
is attached as the manual_accuracy field when an entry exists. -/
def manualAccuracyOf (m : RatingsMap) (e : Experiment) : Option Rat :=
  match m e.experiment_id with
  | some r => some r.accuracy
  | none => none

/-- The numeric accuracy shown by the history-list badge
(ExperimentHistory lines 727-754): nothing when every sample failed,
else the manual accuracy when it is truthy, else nothing
(the badge then reads "Not rated yet"). -/
def badgeAccuracy (e : Experiment) (manual : Option Rat) : Option Rat :=
  let failedCount := (e.sample_results.filter fun s => !s.success).length
  let totalCount := e.sample_results.length
  if failedCount = totalCount ∧ 0 < totalCount then none
  else
    match manual with
    | some a => if a = 0 then none else some a
    | none => none

/-- A successful sample used by concrete counterexamples. -/
def okSample : SampleResult :=
  { input := "q1", output := some "a1", success := true, error := none
    tokens := 10, cost := 1 / 1000, accuracy := 80 }

/-- A failed sample used by concrete counterexamples. -/
def failedSample : SampleResult :=
  { input := "q2", output := none, success := false, error := some "boom"
    tokens := 0, cost := 0, accuracy := 0 }

/-- Concrete experiment with computed accuracy 80 and one successful sample. -/
def expOne : Experiment :=
  { experiment_id := 1, prompt := "p", model := "gpt-4", samples_tested := 1
    avg_tokens := 10, estimated_cost := some (1 / 100), accuracy := 80
    sample_results := [okSample] }

/-- Concrete overlay holding a manual rating of 60 for experiment 1. -/
def overlayOne : RatingsMap :=
  fun k => if k = 1 then some { ratings := [(0, 3)], accuracy := 60 } else none

/-- C1: the claim that the overlay-else-computed precedence is applied
identically at all three consumption sites fails.  With experiment 1 rated
60 in the overlay but no rating saved in the current ResultsView session,
the single-result display shows the computed 80, not the effective 60; and
with an empty overlay the history badge shows no accuracy at all where the
claim requires the computed accuracy 80. -/
theorem accuracy_precedence_counterexample :
    displayAccuracy none expOne ≠ effectiveAccuracy overlayOne expOne ∧
    badgeAccuracy expOne (manualAccuracyOf emptyRatings expOne) ≠
      some (effectiveAccuracy emptyRatings expOne) := by
  constructor
  · show (80 : Rat) ≠ 60
    norm_num
  · show badgeAccuracy expOne none ≠ some 80
    simp [badgeAccuracy, expOne, okSample]

/-- C1 (amended): the overlay-else-computed precedence holds at the
comparison-chart preparation site; the single-result display resolves the
session-local manual accuracy (null gives the computed accuracy even when
the overlay has an entry); the history badge shows the overlay accuracy
when an entry with nonzero accuracy exists and not every sample failed,
and shows no accuracy value at all when no overlay entry exists. -/
theorem accuracy_precedence_amended :
    (∀ (m : RatingsMap) (e : Experiment),
      ((mergeChartExperiment m e).1).accuracy = effectiveAccuracy m e) ∧
    (∀ e : Experiment, displayAccuracy none e = e.accuracy) ∧
    (∀ (a : Rat) (e : Experiment), displayAccuracy (some a) e = a) ∧
    (∀ (m : RatingsMap) (e : Experiment) (r : ManualRating),
      m e.experiment_id = some r → r.accuracy ≠ 0 →
      ¬ ((e.sample_results.filter fun s => !s.success).length =
            e.sample_results.length ∧ 0 < e.sample_results.length) →
      badgeAccuracy e (manualAccuracyOf m e) = some (effectiveAccuracy m e)) ∧
    (∀ (m : RatingsMap) (e : Experiment),
      m e.experiment_id = none →
      badgeAccuracy e (manualAccuracyOf m e) = none) := by
  refine ⟨?_, ?_, ?_, ?_, ?_⟩
  · intro m e
    unfold mergeChartExperiment effectiveAccuracy
    cases m e.experiment_id <;> rfl
  · intro e; rfl
  · intro a e; rfl
  · intro m e r hm ha hfail
    unfold badgeAccuracy manualAccuracyOf effectiveAccuracy
    rw [hm]
    simp only [if_neg hfail, if_neg ha]
  · intro m e hm
    simp [badgeAccuracy, manualAccuracyOf, hm]

/-- Concrete instance of the amended C1 theorem: for experiment 1 with
overlay accuracy 60, the chart merge yields 60, the badge shows 60, and
with no session rating the single-result display shows the computed 80. -/
theorem accuracy_precedence_amended_witness :
    ((mergeChartExperiment overlayOne expOne).1).accuracy = 60 ∧
    badgeAccuracy expOne (manualAccuracyOf overlayOne expOne) = some 60 ∧
    displayAccuracy none expOne = 80 := by
  have h := accuracy_precedence_amended
  refine ⟨?_, ?_, ?_⟩
  · rw [h.1 overlayOne expOne]
    rfl
  · have hb := h.2.2.2.1 overlayOne expOne { ratings := [(0, 3)], accuracy := 60 }
      (by rfl) (by norm_num) (by simp [expOne, okSample])
    rw [hb]
    rfl
  · exact h.2.1 expOne

/-! Rating workflow (RatingModal.jsx): the reviewable sequence, the modal
state machine over (currentIndex, ratings), and the save guard. -/

/-- The reviewable subsequence: only the successful samples, in original
order (RatingModal line 11). -/
def successfulSamples (samples : List SampleResult) : List SampleResult :=
  samples.filter fun s => s.success

/-- What the modal renders: nothing, the terminal no-samples-to-rate
notice, or the reviewing flow over a sample sequence. -/
inductive ModalView where
  | closedView
  | noticeView
  | reviewing (seq : List SampleResult)
deriving Repr

/-- The samples-and-samples-length-positive test of RatingModal line 22. -/
def hasSamples : Option (List SampleResult) → Bool
  | some ss => decide (0 < ss.length)
  | none => false

/-- RatingModal entry logic (lines 20-41): closed when not open or when
there is nothing successful to review, except that an open modal over a
nonempty sample list with no successful sample shows the terminal
no-samples-to-rate notice. -/
def renderModal (isOpen : Bool) (samples : Option (List SampleResult)) : ModalView :=
  let successful := match samples with
    | some ss => successfulSamples ss
    | none => []
  if !isOpen || successful.isEmpty then
    if isOpen && hasSamples samples && successful.isEmpty then ModalView.noticeView
    else ModalView.closedView
  else ModalView.reviewing successful

/-- Lookup in the ratings object (sample index to star value). -/
def lookupKey : List (Nat × Nat) → Nat → Option Nat
  | [], _ => none
  | p :: rest, k => if p.1 = k then some p.2 else lookupKey rest k

/-- JavaScript object update: overwrite the first entry with the given key
in place, or append a new entry at the end. -/
def setKey : List (Nat × Nat) → Nat → Nat → List (Nat × Nat)
  | [], k, v => [(k, v)]
  | p :: rest, k, v => if p.1 = k then (k, v) :: rest else p :: setKey rest k v

/-- In-progress state of the rating workflow: the focused index and the
ratings recorded so far. -/
structure ModalState where
  currentIndex : Nat
  ratings : List (Nat × Nat)
deriving Repr, DecidableEq

/-- State on each open of the modal: index 0, no ratings. -/
def initialModal : ModalState := { currentIndex := 0, ratings := [] }

/-- handleRating (RatingModal lines 45-57): record the star for the
focused index, then auto-advance unless already at the last item;
n is the successful-sample count. -/
def handleRating (n : Nat) (s : ModalState) (star : Nat) : ModalState :=
  { currentIndex := if s.currentIndex < n - 1 then s.currentIndex + 1 else s.currentIndex
    ratings := setKey s.ratings s.currentIndex star }

/-- handleNext (lines 59-63): saturating move forward. -/
def handleNext (n : Nat) (s : ModalState) : ModalState :=
  if s.currentIndex < n - 1 then { s with currentIndex := s.currentIndex + 1 } else s

/-- handlePrevious (lines 65-69): saturating move backward. -/
def handlePrevious (s : ModalState) : ModalState :=
  if 0 < s.currentIndex then { s with currentIndex := s.currentIndex - 1 } else s

/-- The error surfaced when save is attempted with unrated samples,
carrying the remaining count (the toast of RatingModal line 75). -/
structure IncompleteRating where
  remaining : Nat
deriving Repr, DecidableEq

/-- handleSave (RatingModal lines 71-86): refuse with the remaining count
when fewer ratings than successful samples exist, else emit the ratings
and the clamped average accuracy. -/
def handleSave (ratings : List (Nat × Nat)) (n : Nat) :
    Except IncompleteRating (List (Nat × Nat) × Rat) :=
  let unratedCount := n - ratings.length
  if 0 < unratedCount then Except.error { remaining := unratedCount }
  else
    let totalRating := (ratings.map Prod.snd).sum
    let averageAccuracy : Rat := min 100 (max 0 ((totalRating : Rat) / (n : Rat) * 20))
    Except.ok (ratings, averageAccuracy)

/-- The save transition at the modal level: on failure the modal stays
open in the same state and emits nothing to the caller; on success it
closes and emits the ratings with the accuracy. -/
def modalSaveStep (n : Nat) (s : ModalState) :
    Bool × ModalState × Option (List (Nat × Nat) × Rat) :=
  match handleSave s.ratings n with
  | Except.error _ => (true, s, none)
  | Except.ok out => (false, s, some out)

/-- One user interaction inside the open modal. -/
inductive ModalStep (n : Nat) : ModalState → ModalState → Prop where
  | rate (s : ModalState) (star : Nat) : ModalStep n s (handleRating n s star)
  | next (s : ModalState) : ModalStep n s (handleNext n s)
  | prev (s : ModalState) : ModalStep n s (handlePrevious s)

/-- States reachable from a fresh open of the modal. -/
def ModalReachable (n : Nat) (s : ModalState) : Prop :=
  Relation.ReflTransGen (ModalStep n) initialModal s

/-- Structural invariant of reachable modal states: the focus stays in
range and the ratings object has one entry per rated in-range index. -/
def ModalInv (n : Nat) (s : ModalState) : Prop :=
  s.currentIndex < n ∧ (s.ratings.map Prod.fst).Nodup ∧
    ∀ k ∈ s.ratings.map Prod.fst, k < n

lemma lookupKey_isSome_iff (rs : List (Nat × Nat)) (k : Nat) :
    (lookupKey rs k).isSome ↔ k ∈ rs.map Prod.fst := by
  induction rs with
  | nil => simp [lookupKey]
  | cons p rest ih =>
    by_cases h : p.1 = k
    · simp [lookupKey, h]
    · have h' : ¬ k = p.1 := fun hk => h hk.symm
      rw [show lookupKey (p :: rest) k = lookupKey rest k by simp [lookupKey, h], ih,
        List.map_cons, List.mem_cons]
      exact (or_iff_right h').symm

lemma lookupKey_eq_none_iff (rs : List (Nat × Nat)) (k : Nat) :
    lookupKey rs k = none ↔ k ∉ rs.map Prod.fst := by
  rw [← lookupKey_isSome_iff]
  cases lookupKey rs k <;> simp

lemma setKey_map_fst (rs : List (Nat × Nat)) (k v : Nat) :
    (setKey rs k v).map Prod.fst =
      if k ∈ rs.map Prod.fst then rs.map Prod.fst else rs.map Prod.fst ++ [k] := by
  induction rs with
  | nil => simp [setKey]
  | cons p rest ih =>
    by_cases h : p.1 = k
    · simp [setKey, h]
    · have h' : ¬ k = p.1 := fun hk => h hk.symm
      by_cases hk : k ∈ rest.map Prod.fst <;>
        simp [setKey, h, h', hk, ih]

lemma filterLength_split (l : List Nat) (p : Nat → Bool) :
    (l.filter p).length + (l.filter fun a => !p a).length = l.length := by
  induction l with
  | nil => simp
  | cons a t ih =>
    by_cases h : p a <;> simp [List.filter_cons, h] <;> omega

lemma ratings_length_eq (rs : List (Nat × Nat)) (n : Nat)
    (hnd : (rs.map Prod.fst).Nodup)
    (hb : ∀ k ∈ rs.map Prod.fst, k < n)
    (htot : ∀ i < n, (lookupKey rs i).isSome) : rs.length = n := by
  have h1 : rs.map Prod.fst ⊆ List.range n := fun k hk => List.mem_range.mpr (hb k hk)
  have h2 : List.range n ⊆ rs.map Prod.fst := fun i hi =>
    (lookupKey_isSome_iff rs i).mp (htot i (List.mem_range.mp hi))
  have l1 := (hnd.subperm h1).length_le
  have l2 := ((List.nodup_range n).subperm h2).length_le
  simp only [List.length_range, List.length_map] at l1 l2
  omega

lemma unrated_index_count (rs : List (Nat × Nat)) (n : Nat)
    (hnd : (rs.map Prod.fst).Nodup)
    (hb : ∀ k ∈ rs.map Prod.fst, k < n) :
    ((List.range n).filter fun i => (lookupKey rs i).isNone).length = n - rs.length := by
  have hcongr : ((List.range n).filter fun i => (lookupKey rs i).isNone) =
      (List.range n).filter fun i => !decide (i ∈ rs.map Prod.fst) := by
    apply List.filter_congr
    intro i _
    by_cases h : i ∈ rs.map Prod.fst
    · have hs := (lookupKey_isSome_iff rs i).mpr h
      cases hlk : lookupKey rs i with
      | none => rw [hlk] at hs; simp at hs
      | some v => simp [hlk, h]
    · have hn := (lookupKey_eq_none_iff rs i).mpr h
      simp [hn, h]
  have hmemlen :
      ((List.range n).filter fun i => decide (i ∈ rs.map Prod.fst)).length = rs.length := by
    have hnd1 : ((List.range n).filter fun i => decide (i ∈ rs.map Prod.fst)).Nodup :=
      (List.nodup_range n).filter _
    have hsub1 : ((List.range n).filter fun i => decide (i ∈ rs.map Prod.fst)) ⊆
        rs.map Prod.fst := by
      intro x hx
      simpa using (List.mem_filter.mp hx).2
    have hsub2 : rs.map Prod.fst ⊆
        ((List.range n).filter fun i => decide (i ∈ rs.map Prod.fst)) := by
      intro x hx
      exact List.mem_filter.mpr ⟨List.mem_range.mpr (hb x hx), by simpa using hx⟩
    have la := (hnd1.subperm hsub1).length_le
    have lb := (hnd.subperm hsub2).length_le
    have hml : (rs.map Prod.fst).length = rs.length := List.length_map rs Prod.fst
    omega
  have hsplit := filterLength_split (List.range n) fun i => decide (i ∈ rs.map Prod.fst)
  rw [hcongr]
  rw [hmemlen, List.length_range] at hsplit
  omega

lemma modalInv_init (n : Nat) (hn : 0 < n) : ModalInv n initialModal := by
  refine ⟨hn, ?_, ?_⟩ <;> simp [initialModal]

lemma modalInv_step (n : Nat) (s t : ModalState)
    (hs : ModalInv n s) (hst : ModalStep n s t) : ModalInv n t := by
  obtain ⟨hidx, hnd, hb⟩ := hs
  cases hst with
  | rate star =>
    refine ⟨?_, ?_, ?_⟩
    · dsimp [handleRating]
      split <;> omega
    · dsimp [handleRating]
      rw [setKey_map_fst]
      split
      · exact hnd
      · rename_i hmem
        simp [List.nodup_append, hnd, hmem]
    · dsimp [handleRating]
      rw [setKey_map_fst]
      split
      · exact hb
      · intro k hk
        rcases List.mem_append.mp hk with hk | hk
        · exact hb k hk
        · simp at hk
          omega
  | next =>
    dsimp [handleNext]
    split
    · rename_i hlt
      exact ⟨by dsimp; omega, hnd, hb⟩
    · exact ⟨hidx, hnd, hb⟩
  | prev =>
    dsimp [handlePrevious]
    split
    · rename_i hlt
      exact ⟨by dsimp; omega, hnd, hb⟩
    · exact ⟨hidx, hnd, hb⟩

lemma modalInv_reachable (n : Nat) (hn : 0 < n) (s : ModalState)
    (h : ModalReachable n s) : ModalInv n s := by
  induction h with
  | refl => exact modalInv_init n hn
  | tail _ hbc ih => exact modalInv_step n _ _ ih hbc

/-- C2: when every index of the successful-sample subsequence is rated
with a star in 1..5, saving emits the ratings together with the accuracy
clamp(0,100, mean(stars) * 20). -/
theorem saveAccuracy_formula (ratings : List (Nat × Nat)) (n : Nat)
    (hn : 0 < n)
    (hnd : (ratings.map Prod.fst).Nodup)
    (hb : ∀ k ∈ ratings.map Prod.fst, k < n)
    (hstars : ∀ p ∈ ratings, 1 ≤ p.2 ∧ p.2 ≤ 5)
    (htot : ∀ i < n, (lookupKey ratings i).isSome) :
    handleSave ratings n =
      Except.ok (ratings,
        min 100 (max 0 (((ratings.map Prod.snd).sum : Rat) / (n : Rat) * 20))) := by
  have hlen := ratings_length_eq ratings n hnd hb htot
  simp [handleSave, hlen]

/-- Concrete instances of the C2 theorem: three samples all rated five
stars give accuracy 100; ratings 2, 3, 4 give accuracy 60. -/
theorem saveAccuracy_formula_witness :
    handleSave [(0, 5), (1, 5), (2, 5)] 3 = Except.ok ([(0, 5), (1, 5), (2, 5)], 100) ∧
    handleSave [(0, 2), (1, 3), (2, 4)] 3 = Except.ok ([(0, 2), (1, 3), (2, 4)], 60) := by
  constructor
  · have h := saveAccuracy_formula [(0, 5), (1, 5), (2, 5)] 3 (by norm_num)
      (by decide) (by decide) (by decide)
      (by intro i hi; interval_cases i <;> decide)
    rw [h]
    norm_num [min_def, max_def]
  · have h := saveAccuracy_formula [(0, 2), (1, 3), (2, 4)] 3 (by norm_num)
      (by decide) (by decide) (by decide)
      (by intro i hi; interval_cases i <;> decide)
    rw [h]
    norm_num [min_def, max_def]

/-- C8: on any reachable modal state, save succeeds exactly when the
ratings are total over the successful-sample indices; otherwise it fails
with the incomplete-rating error naming the number of unrated samples,
the modal stays open in the same state, and nothing is emitted to the
caller. -/
theorem saveGuard_requires_total (n : Nat) (s : ModalState) (hn : 0 < n)
    (hreach : ModalReachable n s) :
    ((∃ out, handleSave s.ratings n = Except.ok out) ↔
       ∀ i < n, (lookupKey s.ratings i).isSome) ∧
    (∀ e, handleSave s.ratings n = Except.error e →
       e.remaining =
         ((List.range n).filter fun i => (lookupKey s.ratings i).isNone).length ∧
       modalSaveStep n s = (true, s, none)) := by
  obtain ⟨hidx, hnd, hb⟩ := modalInv_reachable n hn s hreach
  have hsub : s.ratings.map Prod.fst ⊆ List.range n :=
    fun k hk => List.mem_range.mpr (hb k hk)
  have hlenle : s.ratings.length ≤ n := by
    have := (hnd.subperm hsub).length_le
    simpa using this
  constructor
  · constructor
    · rintro ⟨out, hout⟩ i hi
      have hzero : n - s.ratings.length = 0 := by
        by_contra hne
        have hpos : 0 < n - s.ratings.length := Nat.pos_of_ne_zero hne
        simp only [handleSave] at hout
        rw [if_pos hpos] at hout
        simp at hout
      have hperm := (hnd.subperm hsub).perm_of_length_le (by simp; omega)
      rw [lookupKey_isSome_iff]
      exact hperm.mem_iff.mpr (List.mem_range.mpr hi)
    · intro htot
      have hlen := ratings_length_eq s.ratings n hnd hb htot
      refine ⟨(s.ratings,
        min 100 (max 0 (((s.ratings.map Prod.snd).sum : Rat) / (n : Rat) * 20))), ?_⟩
      simp [handleSave, hlen]
  · intro e he
    have hcount := unrated_index_count s.ratings n hnd hb
    simp only [handleSave] at he
    split at he
    · rename_i hpos
      cases he
      refine ⟨by simpa using hcount.symm, ?_⟩
      simp only [modalSaveStep, handleSave]
      rw [if_pos hpos]
    · simp at he

/-- Concrete instance of the C8 theorem: two successful samples with only
index 0 rated; save fails with one remaining, the modal keeps its state,
and one index of range 2 is unrated. -/
theorem saveGuard_requires_total_witness :
    modalSaveStep 2 { currentIndex := 1, ratings := [(0, 5)] } =
      (true, { currentIndex := 1, ratings := [(0, 5)] }, none) ∧
    (1 : Nat) = ((List.range 2).filter fun i => (lookupKey [(0, 5)] i).isNone).length := by
  have hstate : handleRating 2 initialModal 5 =
      { currentIndex := 1, ratings := [(0, 5)] } := by decide
  have hreach : ModalReachable 2 { currentIndex := 1, ratings := [(0, 5)] } :=
    Relation.ReflTransGen.single (hstate ▸ ModalStep.rate initialModal 5)
  have h := (saveGuard_requires_total 2 { currentIndex := 1, ratings := [(0, 5)] }
      (by norm_num) hreach).2 { remaining := 1 } rfl
  exact ⟨h.2, h.1⟩

/-- C7: the reviewable sequence is exactly the successful subsequence in
original order; the reviewing view is entered only when some sample
succeeded; and an open modal over a nonempty all-failed sample list shows
the terminal notice instead. -/
theorem reviewing_successful_only (ss : List SampleResult) :
    (successfulSamples ss).Sublist ss ∧
    (∀ s ∈ successfulSamples ss, s.success = true) ∧
    (∀ s ∈ ss, s.success = true → s ∈ successfulSamples ss) ∧
    (∀ (isOpen : Bool) (samples : Option (List SampleResult))
        (seq : List SampleResult),
      renderModal isOpen samples = ModalView.reviewing seq →
      ∃ l, samples = some l ∧ seq = successfulSamples l ∧
        ∃ s ∈ l, s.success = true) ∧
    (ss ≠ [] → (∀ s ∈ ss, s.success = false) →
      renderModal true (some ss) = ModalView.noticeView) := by
  refine ⟨List.filter_sublist ss, ?_, ?_, ?_, ?_⟩
  · intro s hs
    exact (List.mem_filter.mp hs).2
  · intro s hs h
    exact List.mem_filter.mpr ⟨hs, by simp [h]⟩
  · intro isOpen samples seq h
    cases samples with
    | none =>
      rw [show renderModal isOpen none = ModalView.closedView from by
        cases isOpen <;> rfl] at h
      simp at h
    | some l =>
      by_cases hemp : (successfulSamples l).isEmpty
      · have hr : renderModal isOpen (some l) =
            if isOpen && hasSamples (some l) then ModalView.noticeView
            else ModalView.closedView := by
          simp [renderModal, hemp]
        rw [hr] at h
        split at h <;> simp at h
      · cases isOpen with
        | false =>
          have hr : renderModal false (some l) = ModalView.closedView := by
            simp [renderModal]
          rw [hr] at h
          simp at h
        | true =>
          have hr : renderModal true (some l) =
              ModalView.reviewing (successfulSamples l) := by
            simp [renderModal, hemp]
          rw [hr] at h
          injection h with hseq
          refine ⟨l, rfl, hseq.symm, ?_⟩
          have hne : successfulSamples l ≠ [] := by
            intro hnil
            rw [hnil] at hemp
            simp at hemp
          obtain ⟨s, hs⟩ := List.exists_mem_of_ne_nil _ hne
          exact ⟨s, (List.mem_filter.mp hs).1, (List.mem_filter.mp hs).2⟩
  · intro hne hall
    have hnil : successfulSamples ss = [] := by
      apply List.filter_eq_nil_iff.mpr
      intro a ha
      simp [hall a ha]
    simp [renderModal, hnil, hasSamples, List.length_pos, hne]

/-- Concrete instance of the C7 theorem: a mixed list reviews only its
successful sample, and an all-failed list shows the notice. -/
theorem reviewing_successful_only_witness :
    (successfulSamples [failedSample, okSample] = [okSample] ∧
      renderModal true (some [failedSample]) = ModalView.noticeView) := by
  have h := reviewing_successful_only [failedSample]
  refine ⟨rfl, h.2.2.2.2 (by simp) ?_⟩
  intro s hs
  simp at hs
  rw [hs]
  rfl

/-! Retry helper (errorHandler.js lines 172-194).  An operation is a
function from the attempt number to its outcome; the helper returns the
final outcome together with the list of delays waited between attempts
and the number of attempts made. -/

/-- A JavaScript error as seen by the retry helper: the optional HTTP
status of the optional response. -/
structure JsError where
  status : Option Nat
deriving Repr, DecidableEq

/-- The non-transient statuses the helper refuses to retry
(error.response status 400 or 401). -/
def noRetryStatus (e : JsError) : Bool :=
  e.status = some 400 || e.status = some 401

/-- The retry loop: the first argument is the number of attempts still
allowed, the second the index of the current attempt, the third the
running lastError result.  Returns the outcome, the delays waited, and
the number of attempts performed. -/
def retryGo {α : Type} (op : Nat → Except JsError α) (delay : Nat) :
    Nat → Nat → Except JsError α → Except JsError α × List Nat × Nat
  | 0, i, last => (last, [], i)
  | r + 1, i, _ =>
    match op i with
    | Except.ok a => (Except.ok a, [], i + 1)
    | Except.error e =>
      if noRetryStatus e then (Except.error e, [], i + 1)
      else if r = 0 then (Except.error e, [], i + 1)
      else
        let rest := retryGo op delay r (i + 1) (Except.error e)
        (rest.1, delay * (i + 1) :: rest.2.1, rest.2.2)

/-- retryOperation with explicit maxRetries and delay (the source defaults
are 3 and 1000). -/
def retryOperation {α : Type} (op : Nat → Except JsError α)
    (maxRetries : Nat) (delay : Nat) : Except JsError α × List Nat × Nat :=
  retryGo op delay maxRetries 0 (Except.error { status := none })

lemma retryGo_attempts_le {α : Type} (op : Nat → Except JsError α)
    (delay : Nat) : ∀ (r i : Nat) (last : Except JsError α),
    (retryGo op delay r i last).2.2 ≤ i + r := by
  intro r
  induction r with
  | zero => intro i last; simp [retryGo]
  | succ r ih =>
    intro i last
    simp only [retryGo]
    cases op i with
    | ok a => simp
    | error e =>
      by_cases h1 : noRetryStatus e
      · simp [h1]
      · by_cases h2 : r = 0
        · simp [h1, h2]
        · have := ih (i + 1) (Except.error e)
          simp [h1, h2]
          omega

/-- C4: the retry helper attempts the operation at most three times; an
operation failing transiently twice then succeeding returns the success on
the third attempt after waiting delay and 2 times delay; an operation
whose first failure carries status 400 or 401 is rethrown after exactly
one attempt with no delay; and when all three attempts fail transiently
the last error is thrown after three attempts. -/
theorem retryOperation_policy {α : Type} (op : Nat → Except JsError α)
    (d : Nat) (a : α) (e0 e1 e2 : JsError) :
    ((retryOperation op 3 d).2.2 ≤ 3) ∧
    (op 0 = Except.error e0 → op 1 = Except.error e1 → op 2 = Except.ok a →
      noRetryStatus e0 = false → noRetryStatus e1 = false →
      retryOperation op 3 d = (Except.ok a, [d * 1, d * 2], 3)) ∧
    (op 0 = Except.error e0 → noRetryStatus e0 = true →
      retryOperation op 3 d = (Except.error e0, [], 1)) ∧
    (op 0 = Except.error e0 → op 1 = Except.error e1 → op 2 = Except.error e2 →
      noRetryStatus e0 = false → noRetryStatus e1 = false →
      noRetryStatus e2 = false →
      retryOperation op 3 d = (Except.error e2, [d * 1, d * 2], 3)) := by
  refine ⟨?_, ?_, ?_, ?_⟩
  · have h := retryGo_attempts_le op d 3 0 (Except.error { status := none })
    simpa [retryOperation] using h
  · intro h0 h1 h2 hn0 hn1
    simp [retryOperation, retryGo, h0, h1, h2, hn0, hn1]
  · intro h0 hn0
    simp [retryOperation, retryGo, h0, hn0]
  · intro h0 h1 h2 hn0 hn1 hn2
    simp [retryOperation, retryGo, h0, h1, h2, hn0, hn1, hn2]

/-- Concrete instances of the C4 theorem: an operation returning 500 twice
then 7 succeeds on the third attempt with delays 100 and 200; an operation
returning 401 stops after one attempt; an operation always returning 500
fails with the last error after three attempts. -/
theorem retryOperation_policy_witness :
    retryOperation (fun i => if i < 2 then Except.error { status := some 500 }
      else (Except.ok 7 : Except JsError Nat)) 3 100 = (Except.ok 7, [100, 200], 3) ∧
    retryOperation (fun _ => (Except.error { status := some 401 } : Except JsError Nat))
      3 100 = (Except.error { status := some 401 }, [], 1) ∧
    retryOperation (fun _ => (Except.error { status := some 500 } : Except JsError Nat))
      3 100 = (Except.error { status := some 500 }, [100, 200], 3) := by
  refine ⟨?_, ?_, ?_⟩
  · have h := (retryOperation_policy
      (fun i => if i < 2 then Except.error { status := some 500 }
        else (Except.ok 7 : Except JsError Nat)) 100 7
      { status := some 500 } { status := some 500 } { status := some 500 }).2.1
      rfl rfl rfl rfl rfl
    simpa using h
  · have h := (retryOperation_policy
      (fun _ => (Except.error { status := some 401 } : Except JsError Nat)) 100 0
      { status := some 401 } { status := some 401 } { status := some 401 }).2.2.1
      rfl rfl
    simpa using h
  · have h := (retryOperation_policy
      (fun _ => (Except.error { status := some 500 } : Except JsError Nat)) 100 0
      { status := some 500 } { status := some 500 } { status := some 500 }).2.2.2
      rfl rfl rfl rfl rfl rfl
    simpa using h

/-! Experiment history: merged list entries, the manual-rating save
(frame effect, C10), and the bulk clear (C3). -/

/-- A history-list entry: the experiment plus the optional
manual_accuracy attached by the ExperimentHistory merge. -/
structure HistoryExperiment where
  exp : Experiment
  manual_accuracy : Option Rat
deriving Repr, DecidableEq

/-- Overlay write done by both save sites (ExperimentHistory lines
616-635 and ResultsView lines 170-184): the object spread writes exactly
the key of the saved experiment. -/
def saveRatingsOverlay (m : RatingsMap) (id : Nat) (ratings : List (Nat × Nat))
    (acc : Rat) : RatingsMap :=
  fun k => if k = id then some { ratings := ratings, accuracy := acc } else m k

/-- The per-entry update of the experiments list done by
ExperimentHistory.handleSaveRatings: only the entry with the saved
experiment id gets the new manual_accuracy. -/
def updateHistoryExperiment (id : Nat) (acc : Rat) (h : HistoryExperiment) :
    HistoryExperiment :=
  if h.exp.experiment_id = id then { h with manual_accuracy := some acc } else h

/-- ExperimentHistory.handleSaveRatings: write the overlay key and update
the in-memory experiments list. -/
def historySaveRatings (m : RatingsMap) (exps : List HistoryExperiment)
    (id : Nat) (ratings : List (Nat × Nat)) (acc : Rat) :
    RatingsMap × List HistoryExperiment :=
  (saveRatingsOverlay m id ratings acc, exps.map (updateHistoryExperiment id acc))

/-- ResultsView.handleSaveRatings: set the session manual accuracy and
write the overlay key of the current experiment. -/
def resultsSaveRatings (storedMap : RatingsMap) (id : Nat)
    (ratings : List (Nat × Nat)) (acc : Rat) : Option Rat × RatingsMap :=
  (some acc, saveRatingsOverlay storedMap id ratings acc)

/-- C10: saving a manual rating for experiment id writes exactly that
overlay key at both save sites; every other key keeps its previous value,
and history entries for other experiment ids are unchanged. -/
theorem saveRatings_frame (m storedMap : RatingsMap)
    (exps : List HistoryExperiment) (id y : Nat)
    (ratings : List (Nat × Nat)) (acc : Rat) (hy : y ≠ id) :
    ((historySaveRatings m exps id ratings acc).1 y = m y) ∧
    ((historySaveRatings m exps id ratings acc).1 id =
      some { ratings := ratings, accuracy := acc }) ∧
    ((resultsSaveRatings storedMap id ratings acc).2 y = storedMap y) ∧
    ((resultsSaveRatings storedMap id ratings acc).2 id =
      some { ratings := ratings, accuracy := acc }) ∧
    (∀ h ∈ exps, h.exp.experiment_id ≠ id →
      updateHistoryExperiment id acc h = h) := by
  refine ⟨?_, ?_, ?_, ?_, ?_⟩
  · simp [historySaveRatings, saveRatingsOverlay, hy]
  · simp [historySaveRatings, saveRatingsOverlay]
  · simp [resultsSaveRatings, saveRatingsOverlay, hy]
  · simp [resultsSaveRatings, saveRatingsOverlay]
  · intro h _ hid
    simp [updateHistoryExperiment, hid]

/-- Concrete instance of the C10 theorem: saving a rating for experiment
1 leaves the stored entry for experiment 2 untouched and writes the entry
for experiment 1. -/
theorem saveRatings_frame_witness :
    (historySaveRatings
      (fun k => if k = 2 then some { ratings := [(0, 4)], accuracy := 80 } else none)
      [] 1 [(0, 5)] 100).1 2 = some { ratings := [(0, 4)], accuracy := 80 } ∧
    (historySaveRatings
      (fun k => if k = 2 then some { ratings := [(0, 4)], accuracy := 80 } else none)
      [] 1 [(0, 5)] 100).1 1 = some { ratings := [(0, 5)], accuracy := 100 } := by
  have h := saveRatings_frame
    (fun k => if k = 2 then some { ratings := [(0, 4)], accuracy := 80 } else none)
    emptyRatings [] 1 2 [(0, 5)] 100 (by norm_num)
  exact ⟨h.1.trans (by norm_num), h.2.1⟩

/-- The client history state cleared by the bulk-clear handler. -/
structure HistoryClientState where
  experiments : List HistoryExperiment
  manualRatings : RatingsMap

/-- Modelled from the spec: the backend of this repository is not under
the frontend sources, so the DELETE reset endpoint is taken from the spec
sentence that the bulk clear "deletes all server-held experiments for the
session/user"; a failed delete leaves the server store unchanged. -/
def resetExperiments (serverOk : Bool) (server : List Experiment) :
    List Experiment :=
  if serverOk then [] else server

/-- ExperimentHistory.handleClearExperiments (lines 637-656): after the
confirm dialog, call the reset endpoint; only on its success clear the
in-memory list, remove the stored overlay, and reset the overlay state;
on failure only an error toast is shown and nothing is cleared. -/
def handleClearExperiments (confirmOk serverOk : Bool)
    (server : List Experiment) (s : HistoryClientState) :
    List Experiment × HistoryClientState :=
  if !confirmOk then (server, s)
  else
    let serverAfter := resetExperiments serverOk server
    if serverOk then
      (serverAfter, { experiments := [], manualRatings := fun _ => none })
    else (serverAfter, s)

/-- C3: when the server-side delete succeeds, the clear leaves zero
experiments on the server, zero entries in the client list, and an empty
overlay map; when the server-side delete fails, the server list, the
client list, and the overlay map are all left unchanged. -/
theorem clearAll_atomic (server : List Experiment) (s : HistoryClientState) :
    (handleClearExperiments true true server s).1 = [] ∧
    (handleClearExperiments true true server s).2.experiments = [] ∧
    (∀ k, (handleClearExperiments true true server s).2.manualRatings k = none) ∧
    handleClearExperiments true false server s = (server, s) := by
  refine ⟨rfl, rfl, fun k => rfl, rfl⟩

/-! Comparison-chart data preparation (ResultsView lines 245-257). -/

/-- One scatter point of the accuracy-versus-cost chart. -/
structure ChartPoint where
  name : String
  model : String
  experimentId : Nat
  accuracy : Rat
  cost : Rat
  tokens : Rat
  isCurrent : Bool
  samples : Nat
deriving Repr, DecidableEq

/-- The map step building a chart point from a merged experiment: the cost
is scaled by 1000 for display and the current experiment is flagged. -/
def toChartPoint (curId : Nat) (e : Experiment) : ChartPoint :=
  { name := e.model ++ " #" ++ toString e.experiment_id
    model := e.model
    experimentId := e.experiment_id
    accuracy := e.accuracy
    cost := e.estimated_cost.getD 0 * 1000
    tokens := e.avg_tokens * (e.samples_tested : Rat)
    isCurrent := decide (e.experiment_id = curId)
    samples := e.samples_tested }

/-- JavaScript truthiness of the estimated_cost field: present and
nonzero. -/
def costTruthy : Option Rat → Bool
  | some c => decide (¬ c = 0)
  | none => false

/-- chartData: the overlay-merged experiments, filtered to those with
positive accuracy and truthy estimated cost, mapped to chart points. -/
def chartData (m : RatingsMap) (exps : List Experiment) (curId : Nat) :
    List ChartPoint :=
  (((exps.map fun e => (mergeChartExperiment m e).1).filter
      fun e => decide (0 < e.accuracy) && costTruthy e.estimated_cost).map
    (toChartPoint curId))

lemma mergeChartExperiment_fields (m : RatingsMap) (e : Experiment) :
    ((mergeChartExperiment m e).1).experiment_id = e.experiment_id ∧
    ((mergeChartExperiment m e).1).estimated_cost = e.estimated_cost ∧
    ((mergeChartExperiment m e).1).accuracy = effectiveAccuracy m e := by
  unfold mergeChartExperiment effectiveAccuracy
  cases m e.experiment_id <;> exact ⟨rfl, rfl, rfl⟩

/-- The concrete two-experiment list of the claim: accuracy 0 with cost
0.01, and accuracy 80 with cost 0.02. -/
def expAccZero : Experiment :=
  { experiment_id := 1, prompt := "p", model := "gpt-4", samples_tested := 1
    avg_tokens := 10, estimated_cost := some (1 / 100), accuracy := 0
    sample_results := [] }

/-- Second concrete experiment of the claim, accuracy 80, cost 0.02. -/
def expAccEighty : Experiment :=
  { experiment_id := 2, prompt := "p", model := "gpt-4", samples_tested := 1
    avg_tokens := 10, estimated_cost := some (2 / 100), accuracy := 80
    sample_results := [] }

/-- C5: the chart data consists exactly of the experiments whose
effective accuracy is positive and whose estimated cost is truthy, in
list order; the merged source list keeps every experiment (exclusion from
the chart removes nothing from the history data); and on the concrete
pair of the claim only experiment 2 contributes a point. -/
theorem chartData_filter (m : RatingsMap) (exps : List Experiment)
    (curId : Nat) :
    ((chartData m exps curId).map ChartPoint.experimentId =
      (exps.filter fun e =>
          decide (0 < effectiveAccuracy m e) && costTruthy e.estimated_cost).map
        Experiment.experiment_id) ∧
    ((exps.map fun e => (mergeChartExperiment m e).1).map
        Experiment.experiment_id = exps.map Experiment.experiment_id) ∧
    ((chartData emptyRatings [expAccZero, expAccEighty] 2).map
        ChartPoint.experimentId = [2]) := by
  have hmain : ∀ (m : RatingsMap) (l : List Experiment) (c : Nat),
      (chartData m l c).map ChartPoint.experimentId =
        (l.filter fun e =>
            decide (0 < effectiveAccuracy m e) && costTruthy e.estimated_cost).map
          Experiment.experiment_id := by
    intro m l c
    induction l with
    | nil => rfl
    | cons e rest ih =>
      obtain ⟨hid, hcost, hacc⟩ := mergeChartExperiment_fields m e
      simp only [chartData] at ih
      by_cases hp : (0 < effectiveAccuracy m e) ∧
          costTruthy e.estimated_cost = true
      · have htrue : (decide (0 < effectiveAccuracy m e) &&
            costTruthy e.estimated_cost) = true := by
          simp [hp.1, hp.2]
        simp only [chartData, List.map_cons, List.filter_cons, hacc, hcost]
        rw [if_pos htrue, if_pos htrue]
        simp only [List.map_cons]
        refine congrArg₂ List.cons ?_ ih
        simp [toChartPoint, hid]
      · have hfalse : (decide (0 < effectiveAccuracy m e) &&
            costTruthy e.estimated_cost) = false := by
          by_cases hc : costTruthy e.estimated_cost = true
          · have ha : ¬ 0 < effectiveAccuracy m e := fun hlt => hp ⟨hlt, hc⟩
            simp [ha]
          · have hc' : costTruthy e.estimated_cost = false := by
              cases hb : costTruthy e.estimated_cost
              · rfl
              · exact absurd hb hc
            simp [hc']
        simp only [chartData, List.map_cons, List.filter_cons, hacc, hcost]
        rw [if_neg (by simp [hfalse]), if_neg (by simp [hfalse])]
        exact ih
  refine ⟨hmain m exps curId, ?_, ?_⟩
  · induction exps with
    | nil => rfl
    | cons e rest ih =>
      obtain ⟨hid, _, _⟩ := mergeChartExperiment_fields m e
      simp only [List.map_cons, hid, ih]
  · rw [hmain emptyRatings [expAccZero, expAccEighty] 2]
    norm_num [effectiveAccuracy, emptyRatings, expAccZero, expAccEighty,
      costTruthy, List.filter_cons]

/-! Dataset import (PromptTester.jsx lines 172-218) and the sample cap
(lines 40-47).  JavaScript values are modelled with an explicit undefined;
a property access on null or undefined models the thrown TypeError, which
the surrounding try/catch turns into the parse-failure toast. -/

/-- A JavaScript value as seen by the dataset importer. -/
inductive JsVal where
  | undef
  | jsnull
  | bool (b : Bool)
  | num (q : Rat)
  | str (s : String)
  | arr (xs : List JsVal)
  | obj (fields : List (String × JsVal))

/-- JavaScript truthiness. -/
def truthy : JsVal → Bool
  | JsVal.undef => false
  | JsVal.jsnull => false
  | JsVal.bool b => b
  | JsVal.num q => decide (¬ q = 0)
  | JsVal.str s => decide (¬ s = "")
  | JsVal.arr _ => true
  | JsVal.obj _ => true

/-- First value for a key in an object's field list. -/
def lookupStr : List (String × JsVal) → String → Option JsVal
  | [], _ => none
  | p :: rest, k => if p.1 = k then some p.2 else lookupStr rest k

/-- Property access: none models the TypeError thrown on null or
undefined; on an object the field value or undefined; on any other value
undefined. -/
def jsField : JsVal → String → Option JsVal
  | JsVal.undef, _ => none
  | JsVal.jsnull, _ => none
  | JsVal.obj fs, k => some ((lookupStr fs k).getD JsVal.undef)
  | _, _ => some JsVal.undef

/-- The JavaScript or-else operator. -/
def jsOr (a b : JsVal) : JsVal := if truthy a then a else b

/-- The elements a .map call iterates: none models the TypeError of
calling .map on a non-array. -/
def jsElements : JsVal → Option (List JsVal)
  | JsVal.arr xs => some xs
  | _ => none

/-- A test sample held by PromptTester: the text and the optional
expected answer, both JavaScript values. -/
structure Sample where
  text : JsVal
  expected_answer : JsVal

/-- Normalization of one qa_pairs element: text from question, expected
answer from answer. -/
def parseQaPair (p : JsVal) : Option Sample := do
  let q ← jsField p "question"
  let a ← jsField p "answer"
  pure { text := q, expected_answer := a }

/-- Normalization of one bare-array element: question or text or the
element itself, and answer or expected_answer or the empty string. -/
def parseArrayItem (it : JsVal) : Option Sample := do
  let q ← jsField it "question"
  let t ← jsField it "text"
  let a ← jsField it "answer"
  let ea ← jsField it "expected_answer"
  pure { text := jsOr q (jsOr t it)
         expected_answer := jsOr a (jsOr ea (JsVal.str "")) }

/-- The shape dispatch of handleFileUpload on the parsed document: the
qa_pairs shape (with optional system_context), the bare-array shape, the
samples-or-texts shape, and the fall-through that leaves the local
samples variable at the empty list.  A none result models an exception
inside the try block. -/
def parseDataset (j : JsVal) : Option (List Sample × Option JsVal) := do
  let qp ← jsField j "qa_pairs"
  if truthy qp then
    let pairs ← jsElements qp
    let samples ← pairs.mapM parseQaPair
    let sc ← jsField j "system_context"
    pure (samples, if truthy sc then some sc else none)
  else
    match j with
    | JsVal.arr xs => do
        let samples ← xs.mapM parseArrayItem
        pure (samples, none)
    | _ => do
        let sm ← jsField j "samples"
        let tx ← jsField j "texts"
        let items := jsOr sm tx
        if truthy items then
          let xs ← jsElements items
          pure (xs.map fun x => { text := x, expected_answer := JsVal.undef },
            none)
        else
          pure ([], none)

/-- Outcome of the upload surfaced to the user: the loaded-n-samples
success toast, or the parse-failure error toast. -/
inductive UploadOutcome where
  | replaced (n : Nat)
  | parseFailed
deriving Repr, DecidableEq

/-- handleFileUpload from the JSON.parse result onward: a parse failure
or an exception inside the try block leaves the prior samples and toasts
the error; otherwise setTestSamples unconditionally replaces the list
with whatever the shape dispatch produced. -/
def uploadResult (parsed : Option JsVal) (prior : List Sample) :
    List Sample × UploadOutcome :=
  match parsed with
  | none => (prior, UploadOutcome.parseFailed)
  | some j =>
    match parseDataset j with
    | none => (prior, UploadOutcome.parseFailed)
    | some (samples, _) => (samples, UploadOutcome.replaced samples.length)

/-- handleAddSample: append the trimmed input only when it is nonempty
and the list holds fewer than ten samples. -/
def handleAddSample (sampleInput : String) (testSamples : List Sample) :
    List Sample :=
  if sampleInput.trim ≠ "" ∧ testSamples.length < 10 then
    testSamples ++ [{ text := JsVal.str sampleInput.trim
                      expected_answer := JsVal.undef }]
  else testSamples

/-- A valid-JSON document matching none of the three recognized shapes. -/
def unrecognizedJson : JsVal := JsVal.obj [("foo", JsVal.num 1)]

/-- A pre-existing sample. -/
def priorSample : Sample := { text := JsVal.str "q", expected_answer := JsVal.undef }

/-- C6: the claim that an unrecognized shape fails with a dataset error
and leaves the pre-existing sample list unchanged is false: on the
unrecognized object the importer reports success and replaces the prior
one-sample list with the empty list. -/
theorem datasetImport_counterexample :
    (uploadResult (some unrecognizedJson) [priorSample]).2 ≠
      UploadOutcome.parseFailed ∧
    (uploadResult (some unrecognizedJson) [priorSample]).1 ≠ [priorSample] := by
  constructor
  · intro h
    have hv : (uploadResult (some unrecognizedJson) [priorSample]).2 =
        UploadOutcome.replaced 0 := rfl
    rw [hv] at h
    simp at h
  · intro h
    have hv : (uploadResult (some unrecognizedJson) [priorSample]).1 =
        ([] : List Sample) := rfl
    rw [hv] at h
    simp at h

/-- C6 (amended): a parse failure, or an exception raised while handling
a recognized key (for example qa_pairs holding a non-array), leaves the
pre-existing samples unchanged and surfaces the error toast; any shape
the dispatch completes on fully replaces the list with the normalized
samples; the qa_pairs shape normalizes every pair to its question and
answer in order; and an unrecognized valid-JSON shape does not fail: it
replaces the pre-existing list with the empty list and reports success
with zero samples. -/
theorem datasetImport_amended :
    (∀ prior, uploadResult none prior = (prior, UploadOutcome.parseFailed)) ∧
    (∀ j prior, parseDataset j = none →
      uploadResult (some j) prior = (prior, UploadOutcome.parseFailed)) ∧
    (∀ j prior samples sc, parseDataset j = some (samples, sc) →
      uploadResult (some j) prior =
        (samples, UploadOutcome.replaced samples.length)) ∧
    (∀ fs : List (List (String × JsVal)),
      parseDataset (JsVal.obj [("qa_pairs", JsVal.arr (fs.map JsVal.obj))]) =
        some (fs.map fun f =>
          { text := (lookupStr f "question").getD JsVal.undef
            expected_answer := (lookupStr f "answer").getD JsVal.undef }, none)) ∧
    (uploadResult (some unrecognizedJson) [priorSample] =
      ([], UploadOutcome.replaced 0)) := by
  refine ⟨fun prior => rfl, ?_, ?_, ?_, rfl⟩
  · intro j prior h
    simp [uploadResult, h]
  · intro j prior samples sc h
    simp [uploadResult, h]
  · intro fs
    have hmapM : ∀ l : List (List (String × JsVal)),
        (l.map JsVal.obj).mapM parseQaPair = some (l.map fun f =>
          { text := (lookupStr f "question").getD JsVal.undef
            expected_answer := (lookupStr f "answer").getD JsVal.undef }) := by
      intro l
      induction l with
      | nil => rfl
      | cons f rest ih =>
        simp only [List.map_cons, List.mapM_cons, ih]
        rfl
    have hds : parseDataset (JsVal.obj [("qa_pairs", JsVal.arr (fs.map JsVal.obj))]) =
        ((fs.map JsVal.obj).mapM parseQaPair).bind fun samples =>
          some (samples, none) := rfl
    rw [hds, hmapM fs]
    rfl

/-- Concrete instances of the amended C6 theorem: JSON null (whose
property access throws inside the try block) leaves the prior sample
untouched, and a one-pair qa_pairs document replaces the list with the
normalized pair. -/
theorem datasetImport_amended_witness :
    uploadResult (some JsVal.jsnull) [priorSample] =
      ([priorSample], UploadOutcome.parseFailed) ∧
    uploadResult
      (some (JsVal.obj [("qa_pairs", JsVal.arr
        [JsVal.obj [("question", JsVal.str "Q"), ("answer", JsVal.str "A")]])]))
      [priorSample] =
      ([{ text := JsVal.str "Q", expected_answer := JsVal.str "A" }],
        UploadOutcome.replaced 1) := by
  constructor
  · exact datasetImport_amended.2.1 JsVal.jsnull [priorSample] rfl
  · have h4 := datasetImport_amended.2.2.2.1
      [[("question", JsVal.str "Q"), ("answer", JsVal.str "A")]]
    exact datasetImport_amended.2.2.1 _ [priorSample] _ none h4

/-- Eleven samples in the recognized samples shape. -/
def elevenSamplesJson : JsVal :=
  JsVal.obj [("samples", JsVal.arr (List.replicate 11 (JsVal.str "s")))]

/-- C9: the dataset importer replaces the sample list without applying
the ten-sample cap that handleAddSample enforces: importing an
eleven-element samples document leaves eleven samples in the list, while
the manual add on a full list of ten leaves it unchanged. -/
theorem sampleCap_bug :
    ((uploadResult (some elevenSamplesJson) []).1).length = 11 ∧
    (handleAddSample "extra" (List.replicate 10 priorSample)).length = 10 := by
  constructor
  · rfl
  · unfold handleAddSample
    rw [if_neg ?_]
    · simp
    · rintro ⟨-, h⟩
      simp at h

end Promptlyzer
